import Mathlib

/-!
Verification of the extraction engine and batch orchestrator of the
tx-lottery-scraper repository.  JavaScript/TypeScript sources are embedded
shallowly: JS numbers are modelled as exact rationals (every value the
scraper produces comes from decimal text, so the rational value is the
intended one), strings as Lean strings, and the regular expressions used by
the scraper are embedded as explicit left-to-right scanners with the same
leftmost-match, greedy-class semantics.
-/

/-- The whitespace class of JavaScript regular expressions and
String.prototype.trim: tab, LF, VT, FF, CR, space, NBSP, Ogham space mark,
U+2000-200A, line/paragraph separator, NNBSP, MMSP, ideographic space, BOM. -/
def jsSpace (c : Char) : Bool :=
  c.val = 9 || c.val = 10 || c.val = 11 || c.val = 12 || c.val = 13 ||
  c.val = 32 || c.val = 160 || c.val = 0x1680 ||
  (0x2000 <= c.val && c.val <= 0x200a) ||
  c.val = 0x2028 || c.val = 0x2029 || c.val = 0x202f || c.val = 0x205f ||
  c.val = 0x3000 || c.val = 0xfeff

/-- Strip leading and trailing JS whitespace from a character list. -/
def jsTrimChars (cs : List Char) : List Char :=
  ((cs.dropWhile jsSpace).reverse.dropWhile jsSpace).reverse

/-- JavaScript `str.trim()`. -/
def jsTrim (s : String) : String := ⟨jsTrimChars s.data⟩

/-- JavaScript `str.toLowerCase()` restricted to the ASCII range used by the
scraper's label matching. -/
def lowerStr (s : String) : String := ⟨s.data.map Char.toLower⟩

/-- Predicate `leadsWith pat cs`: `pat` is an initial segment of `cs`. -/
def leadsWith : List Char → List Char → Bool
  | [], _ => true
  | _ :: _, [] => false
  | p :: ps, c :: cs => p = c && leadsWith ps cs

/-- Predicate `containsSub pat cs`: `pat` occurs contiguously inside `cs`. -/
def containsSub (pat : List Char) : List Char → Bool
  | [] => leadsWith pat []
  | c :: cs => leadsWith pat (c :: cs) || containsSub pat cs

/-- JavaScript `hay.includes(pat)`. -/
def sIncludes (hay pat : String) : Bool := containsSub pat.data hay.data

/-- Case-insensitive literal match at the head of the input
(the `/i` flag on a literal part of a pattern). -/
def leadsWithCI (pat cs : List Char) : Bool :=
  leadsWith (pat.map Char.toLower) (cs.map Char.toLower)

def isDigitDot (c : Char) : Bool := c.isDigit || c = '.'

def isDigitComma (c : Char) : Bool := c.isDigit || c = ','

/-- The character class `[\d,.]` of the odds pattern. -/
def isOddsNumCh (c : Char) : Bool := c.isDigit || c = ',' || c = '.'

/-- Value of a list of decimal digits. -/
def digitsToNat (cs : List Char) : ℕ :=
  cs.foldl (fun a c => 10 * a + (c.toNat - 48)) 0

/-- JavaScript `parseFloat` on a string containing only digits and dots:
the longest valid decimal-literal head, `none` for NaN. -/
def jsParseFloatQ (cs : List Char) : Option ℚ :=
  let intPart := cs.takeWhile Char.isDigit
  let rest := cs.drop intPart.length
  match rest with
  | '.' :: rest2 =>
      let fracPart := rest2.takeWhile Char.isDigit
      if intPart.isEmpty && fracPart.isEmpty then none
      else some ((digitsToNat intPart : ℚ) +
        (digitsToNat fracPart : ℚ) / ((10 : ℚ) ^ fracPart.length))
  | _ => if intPart.isEmpty then none else some (digitsToNat intPart : ℚ)

/-- Source `parseDollar` (get-game-detail.js:7-10):
`parseFloat(str.replace(/[^0-9.]/g, '')) || 0`, with `!str → 0`. -/
def parseDollar (s : String) : ℚ :=
  if s.isEmpty then 0
  else (jsParseFloatQ (s.data.filter isDigitDot)).getD 0

/-- Source `parseNum` (get-game-detail.js:13-16):
`parseInt(str.replace(/[^0-9]/g, ''), 10) || 0`, with `!str → 0`. -/
def parseNum (s : String) : ℕ :=
  if s.isEmpty then 0
  else
    let ds := s.data.filter Char.isDigit
    if ds.isEmpty then 0 else digitsToNat ds

/-- Match `/1\s+in\s+[\d,.]+/i` anchored at the head of the input; returns
the length of the match. -/
def oddsAt (cs : List Char) : Option ℕ :=
  match cs with
  | '1' :: rest =>
      let ws1 := rest.takeWhile jsSpace
      if ws1.isEmpty then none
      else
        let r2 := rest.drop ws1.length
        if leadsWithCI ['i', 'n'] r2 then
          let r3 := r2.drop 2
          let ws2 := r3.takeWhile jsSpace
          if ws2.isEmpty then none
          else
            let r4 := r3.drop ws2.length
            let num := r4.takeWhile isOddsNumCh
            if num.isEmpty then none
            else some (1 + ws1.length + 2 + ws2.length + num.length)
        else none
  | _ => none

/-- Leftmost match of `/1\s+in\s+[\d,.]+/i`: the matched substring. -/
def oddsFind : List Char → Option (List Char)
  | [] => none
  | c :: cs =>
      match oddsAt (c :: cs) with
      | some n => some ((c :: cs).take n)
      | none => oddsFind cs

/-- Source `parseOdds` (get-game-detail.js:19-23). -/
def parseOdds (s : String) : String :=
  if s.isEmpty then "N/A"
  else
    match oddsFind s.data with
    | some m => jsTrim ⟨m⟩
    | none => jsTrim s

/-- Match `/There are approximately\s+([\d,]+)\*?\s+tickets/i` anchored at
the head; returns the capture group. -/
def ticketsAt (cs : List Char) : Option (List Char) :=
  if leadsWithCI "there are approximately".data cs then
    let r1 := cs.drop 23
    let ws1 := r1.takeWhile jsSpace
    if ws1.isEmpty then none
    else
      let r2 := r1.drop ws1.length
      let num := r2.takeWhile isDigitComma
      if num.isEmpty then none
      else
        let r3 := r2.drop num.length
        let r4 := match r3 with
          | '*' :: t => t
          | _ => r3
        let ws2 := r4.takeWhile jsSpace
        if ws2.isEmpty then none
        else
          let r5 := r4.drop ws2.length
          if leadsWithCI "tickets".data r5 then some num else none
  else none

/-- Leftmost match of the total-tickets pattern (capture group 1). -/
def ticketsFind : List Char → Option (List Char)
  | [] => none
  | c :: cs =>
      match ticketsAt (c :: cs) with
      | some num => some num
      | none => ticketsFind cs

/-- Leftmost match of `/[\d,]+/`: the (greedy) matched run. -/
def runFind : List Char → Option (List Char)
  | [] => none
  | c :: cs =>
      if isDigitComma c then some ((c :: cs).takeWhile isDigitComma)
      else runFind cs

/-- Leftmost match of `/\$[\d,]+/`: the matched substring including `$`. -/
def dollarFind : List Char → Option (List Char)
  | [] => none
  | '$' :: cs =>
      let run := cs.takeWhile isDigitComma
      if run.isEmpty then dollarFind cs else some ('$' :: run)
  | _ :: cs => dollarFind cs

/-- Match of `/pack size[^\d]*([\d,]+)/i` anchored where the literal begins:
the capture group.  The greedy `[^\d]*` stops at the first digit when one
exists; with no digit it backtracks to the last comma, whose maximal
`[\d,]+` run is that single comma. -/
def packCaptureAt (rest : List Char) : Option (List Char) :=
  let pre := rest.takeWhile (fun c => !c.isDigit)
  if pre.length < rest.length then
    some ((rest.drop pre.length).takeWhile isDigitComma)
  else if rest.contains ',' then some [','] else none

/-- Leftmost match of `/pack size[^\d]*([\d,]+)/i` (capture group 1). -/
def packSameLineFind : List Char → Option (List Char)
  | [] => none
  | c :: cs =>
      if leadsWithCI "pack size".data (c :: cs) then
        match packCaptureAt ((c :: cs).drop 9) with
        | some cap => some cap
        | none => packSameLineFind cs
      else packSameLineFind cs

/-- Match of `/Guaranteed Total Prize Amount\s*=\s*\$?([\d,]+)/i` anchored
where the literal begins: the capture group. -/
def gtpaCaptureAt (rest : List Char) : Option (List Char) :=
  let r1 := rest.drop (rest.takeWhile jsSpace).length
  match r1 with
  | '=' :: r2 =>
      let r3 := r2.drop (r2.takeWhile jsSpace).length
      match r3 with
      | '$' :: r4 =>
          let run := r4.takeWhile isDigitComma
          if run.isEmpty then none else some run
      | _ =>
          let run := r3.takeWhile isDigitComma
          if run.isEmpty then none else some run
  | _ => none

/-- Leftmost match of the guaranteed-amount phrase template of the second
detail-extractor revision (get-game-detail.js:255): capture group 1. -/
def gtpaFind : List Char → Option (List Char)
  | [] => none
  | c :: cs =>
      if leadsWithCI "guaranteed total prize amount".data (c :: cs) then
        match gtpaCaptureAt ((c :: cs).drop 29) with
        | some cap => some cap
        | none => gtpaFind cs
      else gtpaFind cs

/-- Second-revision step: `guaranteedPrizeAmount` from the first occurrence
of the phrase template in the page's flattened text. -/
def guaranteedTemplate (fullText : String) : Option ℚ :=
  (gtpaFind fullText.data).map (fun cap => parseDollar ⟨cap⟩)

/-! ## Data model (src/types/Game.ts) -/

/-- Interface `GameSummary` (src/types/Game.ts). -/
structure GameSummary where
  gameNumber : String
  gameName : String
  startDate : String
  ticketPrice : ℚ
  detailUrl : String
deriving DecidableEq, Repr

/-- Interface `GameDetail` (src/types/Game.ts). -/
structure GameDetail where
  packSize : ℕ
  guaranteedPrizeAmount : ℚ
  totalTickets : ℕ
  overallOdds : String
  topPrize : ℚ
  topPrizeInGame : ℕ
  topPrizeClaimed : ℕ
  prizesFound : Bool
deriving DecidableEq, Repr

/-- Record lifecycle states (`status: 'loading' | 'done' | 'error'`). -/
inductive GameStatus where
  | loading
  | done
  | error
deriving DecidableEq, Repr

/-- Interface `Game` (src/types/Game.ts): the join of summary, detail, derived fields,
status and the optional error message. -/
structure Game where
  gameNumber : String
  gameName : String
  startDate : String
  ticketPrice : ℚ
  detailUrl : String
  packSize : ℕ
  guaranteedPrizeAmount : ℚ
  totalTickets : ℕ
  overallOdds : String
  topPrize : ℚ
  topPrizeInGame : ℕ
  topPrizeClaimed : ℕ
  prizesFound : Bool
  packCost : ℚ
  maxLoss : ℚ
  maxLossPercent : ℚ
  topPrizesRemaining : ℤ
  status : GameStatus
  errorMessage : Option String
deriving DecidableEq, Repr

/-- Source `computeFields` (src/App.tsx:18-32): merge a summary and a detail into a
resolved record, computing the derived fields. -/
def computeFields (summary : GameSummary) (detail : GameDetail) : Game :=
  let packCost : ℚ := summary.ticketPrice * detail.packSize
  let maxLoss : ℚ := detail.guaranteedPrizeAmount - packCost
  let maxLossPercent : ℚ := if 0 < packCost then |maxLoss| / packCost * 100 else 0
  let topPrizesRemaining : ℤ :=
    max 0 ((detail.topPrizeInGame : ℤ) - (detail.topPrizeClaimed : ℤ))
  { gameNumber := summary.gameNumber
    gameName := summary.gameName
    startDate := summary.startDate
    ticketPrice := summary.ticketPrice
    detailUrl := summary.detailUrl
    packSize := detail.packSize
    guaranteedPrizeAmount := detail.guaranteedPrizeAmount
    totalTickets := detail.totalTickets
    overallOdds := detail.overallOdds
    topPrize := detail.topPrize
    topPrizeInGame := detail.topPrizeInGame
    topPrizeClaimed := detail.topPrizeClaimed
    prizesFound := detail.prizesFound
    packCost := packCost
    maxLoss := maxLoss
    maxLossPercent := maxLossPercent
    topPrizesRemaining := topPrizesRemaining
    status := .done
    errorMessage := none }

/-! ## Batch orchestrator (src/App.tsx, `loadGames`) -/

/-- The loading skeleton created for each summary before its detail fetch
(src/App.tsx:97-112). -/
def initRecord (s : GameSummary) : Game :=
  { gameNumber := s.gameNumber
    gameName := s.gameName
    startDate := s.startDate
    ticketPrice := s.ticketPrice
    detailUrl := s.detailUrl
    packSize := 0
    guaranteedPrizeAmount := 0
    totalTickets := 0
    overallOdds := "..."
    topPrize := 0
    topPrizeInGame := 0
    topPrizeClaimed := 0
    prizesFound := false
    packCost := 0
    maxLoss := 0
    maxLossPercent := 0
    topPrizesRemaining := 0
    status := .loading
    errorMessage := none }

/-- The failed record built in the per-item catch block
(src/App.tsx:139-155). -/
def errorGame (s : GameSummary) (msg : String) : Game :=
  { gameNumber := s.gameNumber
    gameName := s.gameName
    startDate := s.startDate
    ticketPrice := s.ticketPrice
    detailUrl := s.detailUrl
    packSize := 0
    guaranteedPrizeAmount := 0
    totalTickets := 0
    overallOdds := "N/A"
    topPrize := 0
    topPrizeInGame := 0
    topPrizeClaimed := 0
    prizesFound := false
    packCost := 0
    maxLoss := 0
    maxLossPercent := 0
    topPrizesRemaining := 0
    status := .error
    errorMessage := some msg }

/-- How one detail fetch settles: a parsed `GameDetail`, or a failure
(network error, non-2xx response, malformed body) whose human-readable
message the catch block receives. -/
inductive Outcome where
  | ok (d : GameDetail)
  | err (msg : String)
deriving DecidableEq, Repr

/-- The per-item try/catch body of `loadGames` (src/App.tsx:124-158): a
settled fetch always yields a record, never an exception. -/
def mkResult (s : GameSummary) : Outcome → Game
  | .ok d => computeFields s d
  | .err msg => errorGame s msg

/-- One completion callback's `setGames` update (src/App.tsx:135-137 and
156-158): replace every record whose `gameNumber` matches the summary. -/
def applyCompletion (gs : List Game) (c : GameSummary × Outcome) : List Game :=
  gs.map (fun g => if g.gameNumber = c.1.gameNumber then mkResult c.1 c.2 else g)

/-- The same update followed elementwise: fold the completion sequence over
a single record. -/
def runRecord (g : Game) (cs : List (GameSummary × Outcome)) : Game :=
  cs.foldl
    (fun g c => if g.gameNumber = c.1.gameNumber then mkResult c.1 c.2 else g) g

/-- A full detail phase of `loadGames` (src/App.tsx:97-165): initialize one
loading skeleton per summary, then apply the completion callbacks in the
order the fetches settled. -/
def runDetails (summaries : List GameSummary)
    (cs : List (GameSummary × Outcome)) : List Game :=
  cs.foldl applyCompletion (summaries.map initRecord)

/-! ## Detail handler request validation (netlify/functions/get-game-detail.js:31-36) -/

def BASE_URL : String := "https://www.texaslottery.com"

/-- What the detail handler decides before any network activity: an early
HTTP response, or the resolved absolute URL it will fetch. -/
inductive PreResult where
  | earlyReturn (statusCode : ℕ) (errorBody : String)
  | proceedFetch (detailUrl : String)
deriving DecidableEq, Repr

/-- The pre-fetch phase of the detail handler
(get-game-detail.js:31-36).  `queryStringParameters` is `none` when the
event carries no query-parameter object (the `|| {}` default), and the
inner option is the `url` member.  A missing or empty (JS-falsy) `url`
returns 400 before any fetch; otherwise the target is the `url` itself when
it starts with "http", else `BASE_URL` prefixed to it. -/
def handlerPre (queryStringParameters : Option (Option String)) : PreResult :=
  let url := queryStringParameters.getD none
  match url with
  | none => .earlyReturn 400 "Missing url parameter"
  | some u =>
      if u.isEmpty then .earlyReturn 400 "Missing url parameter"
      else .proceedFetch (if leadsWith "http".data u.data then u else BASE_URL ++ u)
/-! ## Detail extractor (netlify/functions/get-game-detail.js, first revision) -/

/-- A table of the detail page as the extractor consumes it: its flattened
text (`$(table).text()`), the cell texts of its first row (`th, td` of
`find('thead tr, tr').first()`), and for every `tr` the texts of its `td`
cells. -/
structure HtmlTable where
  text : String
  header : List String
  rows : List (List String)
deriving DecidableEq, Repr

/-- A detail page as the extractor consumes it: the raw document (never
inspected directly), the flattened body text (`$('body').text()`), the
texts of the elements matched by `'table tr, dl, .game-detail, p'` in
document order, and the tables in document order. -/
structure DetailPage where
  rawHtml : String
  fullText : String
  elements : List String
  tables : List HtmlTable
deriving DecidableEq, Repr

/-- The four scalar fields with their defaults
(get-game-detail.js:53-56). -/
structure ScalarState where
  packSize : ℕ
  guaranteedPrizeAmount : ℚ
  totalTickets : ℕ
  overallOdds : String
deriving DecidableEq, Repr

def initScalars : ScalarState :=
  { packSize := 0, guaranteedPrizeAmount := 0, totalTickets := 0,
    overallOdds := "N/A" }

/-- Method 1, pack-size clause (get-game-detail.js:72-75). -/
def m1pack (st : ScalarState) (text lower : String) : ScalarState :=
  if sIncludes lower "pack size" && st.packSize = 0 then
    match runFind text.data with
    | some m => { st with packSize := parseNum ⟨m⟩ }
    | none => st
  else st

/-- Method 1, guaranteed-amount clause (get-game-detail.js:76-79). -/
def m1guar (st : ScalarState) (text lower : String) : ScalarState :=
  if (sIncludes lower "guaranteed" || sIncludes lower "guaranteed total prize")
      && st.guaranteedPrizeAmount = 0 then
    match dollarFind text.data with
    | some m => { st with guaranteedPrizeAmount := parseDollar ⟨m⟩ }
    | none => st
  else st

/-- Method 1, overall-odds clause (get-game-detail.js:80-82). -/
def m1odds (st : ScalarState) (text lower : String) : ScalarState :=
  if sIncludes lower "overall odds" && st.overallOdds = "N/A" then
    { st with overallOdds := parseOdds text }
  else st

/-- Method 1, one element (get-game-detail.js:68-83): the three clauses
run in source order over the shared mutable state; each field is assigned
only while it still holds its default. -/
def method1Step (st : ScalarState) (text : String) : ScalarState :=
  let lower := lowerStr text
  m1odds (m1guar (m1pack st text lower) text lower) text lower

/-- Method 1 (get-game-detail.js:68-83). -/
def method1 (elements : List String) (st : ScalarState) : ScalarState :=
  elements.foldl method1Step st

/-- JavaScript `'\n'`-split of the flattened text. -/
def splitNl : List Char → List (List Char)
  | [] => [[]]
  | c :: cs =>
      if c = '\n' then [] :: splitNl cs
      else
        match splitNl cs with
        | [] => [[c]]
        | l :: ls => (c :: l) :: ls

/-- Line split `fullText.split('\n').map(l => l.trim()).filter(Boolean)`
(get-game-detail.js:87). -/
def linesOf (fullText : String) : List String :=
  ((splitNl fullText.data).map (fun l => (⟨jsTrimChars l⟩ : String))).filter
    (fun l => !l.isEmpty)

/-- Method 2, pack-size clause (get-game-detail.js:91-96): same-line
match, else the (truthy) next line. -/
def m2pack (st : ScalarState) (line lower : String) (next : Option String) :
    ScalarState :=
  if sIncludes lower "pack size" && st.packSize = 0 then
    match packSameLineFind line.data with
    | some cap => { st with packSize := parseNum ⟨cap⟩ }
    | none =>
        match next with
        | some nl =>
            if nl.isEmpty then st else { st with packSize := parseNum nl }
        | none => st
  else st

/-- Method 2, guaranteed-amount clause (get-game-detail.js:97-100). -/
def m2guar (st : ScalarState) (line lower : String) : ScalarState :=
  if sIncludes lower "guaranteed" && st.guaranteedPrizeAmount = 0 then
    match dollarFind line.data with
    | some m => { st with guaranteedPrizeAmount := parseDollar ⟨m⟩ }
    | none => st
  else st

/-- Method 2, overall-odds clause (get-game-detail.js:101-106): when the
line itself yields no odds phrase (parseOdds echoes the trimmed line), the
(truthy) next line is parsed instead. -/
def m2odds (st : ScalarState) (line lower : String) (next : Option String) :
    ScalarState :=
  if sIncludes lower "overall odds" && st.overallOdds = "N/A" then
    let o1 := parseOdds line
    if o1 = jsTrim line then
      match next with
      | some nl => if nl.isEmpty then { st with overallOdds := o1 }
                   else { st with overallOdds := parseOdds nl }
      | none => { st with overallOdds := o1 }
    else { st with overallOdds := o1 }
  else st

/-- Method 2, one line with its lookahead (get-game-detail.js:89-107):
the three clauses run in source order over the shared mutable state. -/
def method2Step (st : ScalarState) (line : String) (next : Option String) :
    ScalarState :=
  let lower := lowerStr line
  m2odds (m2guar (m2pack st line lower next) line lower) line lower next

/-- Method 2's loop over the trimmed non-empty lines, with `lines[j + 1]`
as lookahead (get-game-detail.js:89-107). -/
def method2 : List String → ScalarState → ScalarState
  | [], st => st
  | l :: rest, st => method2 rest (method2Step st l rest.head?)

/-- The scalar pipeline up to the end of Method 1: defaults, the
total-tickets full-text pattern (get-game-detail.js:62-65), then the
element scan. -/
def scalarsAfterM1 (page : DetailPage) : ScalarState :=
  let st0 := initScalars
  let st1 :=
    match ticketsFind page.fullText.data with
    | some cap => { st0 with totalTickets := parseNum ⟨cap⟩ }
    | none => st0
  method1 page.elements st1

/-- The full scalar extraction (get-game-detail.js:53-108): Method 2 runs
only if pack size or total tickets is still missing. -/
def extractScalars (page : DetailPage) : ScalarState :=
  let st := scalarsAfterM1 page
  if st.packSize = 0 || st.totalTickets = 0 then
    method2 (linesOf page.fullText) st
  else st

/-! ## Prize-table resolver (get-game-detail.js:110-162, first revision) -/

/-- Column-role indices, defaulting to 0/1/2 (get-game-detail.js:128-130). -/
structure PrizeCols where
  prizeAmountCol : ℕ
  inGameCol : ℕ
  claimedCol : ℕ
deriving DecidableEq, Repr

/-- Header-row scan re-deriving the column roles
(get-game-detail.js:132-138). -/
def headerCols (header : List String) : PrizeCols :=
  (header.foldl
    (fun (p : PrizeCols × ℕ) cell =>
      let (cols, j) := p
      let cellText := lowerStr cell
      let cols :=
        if sIncludes cellText "prize" && sIncludes cellText "amount" then
          { cols with prizeAmountCol := j }
        else if sIncludes cellText "in game" then { cols with inGameCol := j }
        else if sIncludes cellText "claimed" then { cols with claimedCol := j }
        else cols
      (cols, j + 1))
    (⟨0, 1, 2⟩, 0)).1

/-- A table qualifies as the prizes table when its flattened text contains
"prize" and at least one of "in game" / "claimed"
(get-game-detail.js:119-125). -/
def tableQual (t : HtmlTable) : Bool :=
  let tableText := lowerStr t.text
  sIncludes tableText "prize" &&
    (sIncludes tableText "in game" || sIncludes tableText "claimed")

/-- Cell access `$(cells[col]).text().trim()`: a missing cell reads as the empty
string. -/
def cellAt (cells : List String) (i : ℕ) : String := jsTrim (cells.getD i "")

/-- The values the row scan derives from one `tr`
(get-game-detail.js:141-151). -/
structure PrizeEntry where
  ncells : ℕ
  v : ℚ
  ig : ℕ
  cl : ℕ
deriving DecidableEq, Repr

def rowEntry (cols : PrizeCols) (cells : List String) : PrizeEntry :=
  { ncells := cells.length
    v := parseDollar (cellAt cells cols.prizeAmountCol)
    ig := parseNum (cellAt cells cols.inGameCol)
    cl := parseNum (cellAt cells cols.claimedCol) }

/-- The prize accumulator (get-game-detail.js:112-115). -/
structure PrizeState where
  topPrize : ℚ
  topPrizeInGame : ℕ
  topPrizeClaimed : ℕ
  prizesFound : Bool
deriving DecidableEq, Repr

def initPrize : PrizeState :=
  { topPrize := 0, topPrizeInGame := 0, topPrizeClaimed := 0,
    prizesFound := false }

/-- One data row (get-game-detail.js:141-161): rows with fewer than three
cells are skipped; a positive prize amount marks `prizesFound` and replaces
the top-prize record only when it strictly exceeds the current maximum. -/
def prizeRowStep (st : PrizeState) (e : PrizeEntry) : PrizeState :=
  if e.ncells < 3 then st
  else if 0 < e.v ∧ (0 < e.ig ∨ 0 ≤ e.cl) then
    if st.topPrize < e.v then
      { topPrize := e.v, topPrizeInGame := e.ig, topPrizeClaimed := e.cl,
        prizesFound := true }
    else { st with prizesFound := true }
  else st

/-- The entries of one qualifying table in document order. -/
def tableEntries (t : HtmlTable) : List PrizeEntry :=
  let cols := headerCols t.header
  t.rows.map (rowEntry cols)

/-- All entries the scan visits: qualifying tables in document order, their
rows in document order. -/
def allEntries (page : DetailPage) : List PrizeEntry :=
  ((page.tables.filter tableQual).map tableEntries).flatten

/-- The whole prize-table scan (get-game-detail.js:118-162). -/
def prizeScan (page : DetailPage) : PrizeState :=
  page.tables.foldl
    (fun st t =>
      if tableQual t then (tableEntries t).foldl prizeRowStep st else st)
    initPrize

/-- The complete detail extraction (get-game-detail.js:49-177, first
revision): the scalar chain plus the prize-table scan, assembled into the
response body. -/
def extractGameDetail (page : DetailPage) : GameDetail :=
  let s := extractScalars page
  let p := prizeScan page
  { packSize := s.packSize
    guaranteedPrizeAmount := s.guaranteedPrizeAmount
    totalTickets := s.totalTickets
    overallOdds := s.overallOdds
    topPrize := p.topPrize
    topPrizeInGame := p.topPrizeInGame
    topPrizeClaimed := p.topPrizeClaimed
    prizesFound := p.prizesFound }
/-! ## Listing extractor (the seenGameNumbers listing revision of the
games-index scraper) -/

/-- An anchor inside a listing cell: its `href` attribute (absent when the
attribute is missing) and its text. -/
structure ListingLink where
  href : Option String
  text : String
deriving DecidableEq, Repr

/-- A `td` cell of a listing row: its text and its first `a` element, when
one exists (`find('a')` on a cell without anchors yields an empty
selection, whose `attr('href')` is undefined and whose `text()` is ""). -/
structure ListingCell where
  text : String
  link : Option ListingLink
deriving DecidableEq, Repr

/-- A listing-table row: its `td` cells in order. -/
abbrev ListingRow := List ListingCell

/-- The detail URL resolution of the listing scraper:
`href.startsWith('http') ? href : BASE_URL + (href.startsWith('/') ? '' : '/') + href`. -/
def resolveDetailUrl (href : String) : String :=
  if leadsWith "http".data href.data then href
  else BASE_URL ++ (if leadsWith "/".data href.data then "" else "/") ++ href

/-- The game-row test and field extraction of the listing revision
(before the duplicate check and the final validation): a row with at least
five cells whose first cell links to a `details.html` page yields its
game number and candidate summary. -/
def rowGame (r : ListingRow) : Option (String × GameSummary) :=
  if r.length < 5 then none
  else
    let c0 := r.getD 0 ⟨"", none⟩
    let href? := c0.link.bind (fun l => l.href)
    match href? with
    | none => none
    | some href =>
        if href.isEmpty then none
        else if !sIncludes href "details.html" then none
        else
          let gameNumber := jsTrim ((c0.link.map (fun l => l.text)).getD "")
          let startDate := jsTrim (r.getD 1 ⟨"", none⟩).text
          let ticketPriceRaw := jsTrim (r.getD 2 ⟨"", none⟩).text
          let gameName := jsTrim (r.getD 4 ⟨"", none⟩).text
          let ticketPrice := parseDollar ticketPriceRaw
          some (gameNumber,
            { gameNumber := gameNumber
              gameName := gameName
              startDate := startDate
              ticketPrice := ticketPrice
              detailUrl := resolveDetailUrl href })

/-- The final validation before a push:
`gameNumber && gameName && gameName.length > 0 && gameName !== '*'`. -/
def validSummary (s : GameSummary) : Bool :=
  !s.gameNumber.isEmpty && !s.gameName.isEmpty && s.gameName ≠ "*"

/-- The row loop of the listing revision: the game number joins the
seen-set as soon as a game row bears it—before the name validation—so a
game row is skipped whenever an earlier game row carried the same number. -/
def scanListing : List ListingRow → List String → List GameSummary
  | [], _ => []
  | r :: rs, seen =>
      match rowGame r with
      | none => scanListing rs seen
      | some (gn, s) =>
          if gn ∈ seen then scanListing rs seen
          else if validSummary s then s :: scanListing rs (gn :: seen)
          else scanListing rs (gn :: seen)

/-- The whole listing scan over the page's rows in document order. -/
def listGames (rows : List ListingRow) : List GameSummary :=
  scanListing rows []
/-! ## Theorems -/

lemma jsParseFloatQ_nonneg (cs : List Char) (q : ℚ)
    (h : jsParseFloatQ cs = some q) : 0 ≤ q := by
  simp only [jsParseFloatQ] at h
  split at h
  · split at h
    · exact absurd h (by simp)
    · have := h
      simp only [Option.some.injEq] at this
      subst this
      positivity
  · split at h
    · exact absurd h (by simp)
    · simp only [Option.some.injEq] at h
      subst h
      positivity

lemma parseDollar_nonneg (s : String) : 0 ≤ parseDollar s := by
  unfold parseDollar
  split
  · exact le_refl 0
  · cases h : jsParseFloatQ (s.data.filter isDigitDot) with
    | none => simp [Option.getD]
    | some q => simpa [Option.getD] using jsParseFloatQ_nonneg _ q h

/-- C1: for every resolved record built by `computeFields`, the derived
fields satisfy `packCost = ticketPrice * packSize`,
`maxLoss = guaranteedPrizeAmount - packCost`,
`maxLossPercent = |maxLoss| / packCost * 100` when `packCost > 0` and `0`
when `packCost = 0`, and
`topPrizesRemaining = max 0 (topPrizeInGame - topPrizeClaimed)`; the record
is in the resolved (`done`) state. -/
theorem computeFields_derived_fields (s : GameSummary) (d : GameDetail) :
    (computeFields s d).packCost = s.ticketPrice * d.packSize ∧
    (computeFields s d).maxLoss =
      d.guaranteedPrizeAmount - (computeFields s d).packCost ∧
    (computeFields s d).maxLossPercent =
      (if 0 < (computeFields s d).packCost then
        |(computeFields s d).maxLoss| / (computeFields s d).packCost * 100
      else 0) ∧
    (computeFields s d).topPrizesRemaining =
      max 0 ((d.topPrizeInGame : ℤ) - (d.topPrizeClaimed : ℤ)) ∧
    (computeFields s d).status = GameStatus.done :=
  ⟨rfl, rfl, rfl, rfl, rfl⟩

/-- C8: `parseDollar` (the spec's parseCurrency) strips every character
except digits and the decimal point and parses the rest as a number,
returning 0 for empty or unparseable input (and never a negative value);
`parseNum` (the spec's parseCount) strips every non-digit and parses an
integer, returning 0 on failure; the spec's four examples evaluate as
stated. -/
theorem parse_normalizers_spec :
    parseDollar "$1,000,000" = 1000000 ∧
    parseDollar "" = 0 ∧
    parseDollar "N/A" = 0 ∧
    parseNum "1,234,567 tickets" = 1234567 ∧
    parseNum "" = 0 ∧
    (∀ s : String, 0 ≤ parseDollar s) ∧
    (∀ s : String, s.data.all (fun c => !isDigitDot c) → parseDollar s = 0) := by
  refine ⟨by decide, by decide, by decide, by decide, by decide,
    parseDollar_nonneg, ?_⟩
  intro s h
  unfold parseDollar
  split
  · rfl
  · have hf : s.data.filter isDigitDot = [] := by
      rw [List.filter_eq_nil_iff]
      intro a ha
      have := List.all_eq_true.mp h a ha
      simpa using this
    rw [hf]
    rfl

theorem parse_normalizers_spec_witness : parseDollar "xyz-" = 0 :=
  parse_normalizers_spec.2.2.2.2.2.2 "xyz-" (by decide)

/-- C10: with no `url` query parameter (including an absent
query-parameter object), the detail handler returns status 400 with body
error "Missing url parameter" before performing any fetch (the
`earlyReturn` branch is decided before the fetch call); a non-empty `url`
not starting with "http" is fetched with the fixed base origin prefixed. -/
theorem handlerPre_url_validation :
    handlerPre none = PreResult.earlyReturn 400 "Missing url parameter" ∧
    handlerPre (some none) = PreResult.earlyReturn 400 "Missing url parameter" ∧
    (∀ u : String, u.isEmpty = false → leadsWith "http".data u.data = false →
      handlerPre (some (some u)) = PreResult.proceedFetch (BASE_URL ++ u)) ∧
    (∀ u : String, u.isEmpty = false → leadsWith "http".data u.data = true →
      handlerPre (some (some u)) = PreResult.proceedFetch u) := by
  refine ⟨rfl, rfl, ?_, ?_⟩ <;> intro u h1 h2 <;> simp [handlerPre, h1, h2]

theorem handlerPre_url_validation_witness :
    handlerPre (some (some "/export/sites/lottery/details.html")) =
      PreResult.proceedFetch
        "https://www.texaslottery.com/export/sites/lottery/details.html" :=
  handlerPre_url_validation.2.2.1 "/export/sites/lottery/details.html"
    (by decide) (by decide)

/-- C7 counterexample: the spec's example
`parseOdds("Overall odds of winning are 1 in 4.33.") == "1 in 4.33"` fails
on the code: the greedy `[\d,.]+` class also consumes the sentence-final
period, so the function returns "1 in 4.33." instead. -/
theorem parseOdds_example_fails :
    parseOdds "Overall odds of winning are 1 in 4.33." = "1 in 4.33." ∧
    parseOdds "Overall odds of winning are 1 in 4.33." ≠ "1 in 4.33" := by
  constructor <;> decide

/-- C7 amended: `parseOdds` returns "N/A" for empty input; for input with
a case-insensitive "1 in number" phrase it returns the matched phrase
trimmed, where the greedy number class `[\d,.]` also keeps any directly
adjacent commas or periods (so the spec's example yields "1 in 4.33.",
with the sentence-final period); non-empty input without a match is
returned trimmed. -/
theorem parseOdds_spec :
    parseOdds "" = "N/A" ∧
    parseOdds "Overall odds of winning are 1 in 4.33." = "1 in 4.33." ∧
    parseOdds "Overall odds of winning are 1 in 4" = "1 in 4" ∧
    (∀ s : String, s.isEmpty = false → oddsFind s.data = none →
      parseOdds s = jsTrim s) ∧
    (∀ s : String, ∀ m : List Char, s.isEmpty = false →
      oddsFind s.data = some m → parseOdds s = jsTrim ⟨m⟩) := by
  refine ⟨by decide, by decide, by decide, ?_, ?_⟩
  · intro s h1 h2
    unfold parseOdds
    rw [h1, h2]
    rfl
  · intro s m h1 h2
    unfold parseOdds
    rw [h1, h2]
    rfl

theorem parseOdds_spec_witness : parseOdds "decorative text" = jsTrim "decorative text" :=
  parseOdds_spec.2.2.2.1 "decorative text" (by decide) (by decide)

/-- C9: detail extraction is deterministic — it is a function of exactly
the page's flattened text, labeled elements and tables; two pages agreeing
on those (even with different underlying raw documents) extract identical
`GameDetail`s in every field. -/
theorem extractGameDetail_deterministic (p q : DetailPage)
    (hf : p.fullText = q.fullText) (he : p.elements = q.elements)
    (ht : p.tables = q.tables) : extractGameDetail p = extractGameDetail q := by
  obtain ⟨rp, fp, ep, tp⟩ := p
  obtain ⟨rq, fq, eq, tq⟩ := q
  simp only at hf he ht
  subst hf he ht
  rfl

theorem extractGameDetail_deterministic_witness :
    extractGameDetail ⟨"<html>a</html>", "", [], []⟩ =
      extractGameDetail ⟨"<html>b</html>", "", [], []⟩ :=
  extractGameDetail_deterministic _ _ rfl rfl rfl
/-! ## Orchestrator lemmas -/

lemma mkResult_gameNumber (s : GameSummary) (o : Outcome) :
    (mkResult s o).gameNumber = s.gameNumber := by
  cases o <;> rfl

lemma mkResult_status (s : GameSummary) (o : Outcome) :
    (mkResult s o).status = GameStatus.done ∨
      (mkResult s o).status = GameStatus.error := by
  cases o
  · exact Or.inl rfl
  · exact Or.inr rfl

lemma foldl_applyCompletion (cs : List (GameSummary × Outcome)) (l : List Game) :
    cs.foldl applyCompletion l = l.map (fun g => runRecord g cs) := by
  induction cs generalizing l with
  | nil => simp [runRecord]
  | cons c cs ih =>
      rw [List.foldl_cons, applyCompletion, ih, List.map_map]
      rfl

lemma runDetails_eq_map (summaries : List GameSummary)
    (cs : List (GameSummary × Outcome)) :
    runDetails summaries cs =
      (summaries.map initRecord).map (fun g => runRecord g cs) :=
  foldl_applyCompletion cs (summaries.map initRecord)

lemma runRecord_cons (g : Game) (c : GameSummary × Outcome)
    (cs : List (GameSummary × Outcome)) :
    runRecord g (c :: cs) =
      runRecord (if g.gameNumber = c.1.gameNumber then mkResult c.1 c.2 else g)
        cs := rfl

lemma runRecord_gameNumber (cs : List (GameSummary × Outcome)) (g : Game) :
    (runRecord g cs).gameNumber = g.gameNumber := by
  induction cs generalizing g with
  | nil => rfl
  | cons c cs ih =>
      rw [runRecord_cons, ih]
      split
      · rename_i h
        rw [mkResult_gameNumber, h]
      · rfl

lemma runRecord_terminal_preserved (cs : List (GameSummary × Outcome)) (g : Game)
    (h : g.status = GameStatus.done ∨ g.status = GameStatus.error) :
    (runRecord g cs).status = GameStatus.done ∨
      (runRecord g cs).status = GameStatus.error := by
  induction cs generalizing g with
  | nil => exact h
  | cons c cs ih =>
      rw [runRecord_cons]
      split
      · exact ih _ (mkResult_status c.1 c.2)
      · exact ih _ h

lemma runRecord_terminal (cs : List (GameSummary × Outcome)) (g : Game)
    (h : ∃ c ∈ cs, c.1.gameNumber = g.gameNumber) :
    (runRecord g cs).status = GameStatus.done ∨
      (runRecord g cs).status = GameStatus.error := by
  induction cs generalizing g with
  | nil => simp at h
  | cons c cs ih =>
      rw [runRecord_cons]
      by_cases hc : g.gameNumber = c.1.gameNumber
      · rw [if_pos hc]
        exact runRecord_terminal_preserved cs _ (mkResult_status c.1 c.2)
      · rw [if_neg hc]
        rcases h with ⟨c', hc', hn⟩
        rcases List.mem_cons.mp hc' with rfl | hmem
        · exact absurd hn.symm hc
        · exact ih g ⟨c', hmem, hn⟩

/-- C2: after a full detail phase over N summaries in which every
summary's fetch settled (appears in the completion sequence), the record
collection has exactly N records, one per summary (the game numbers line
up positionally with the listing), and every record is terminal —
`done` or `error`, never `loading`. -/
theorem loadGames_full_run_terminal (summaries : List GameSummary)
    (cs : List (GameSummary × Outcome))
    (hall : ∀ s ∈ summaries, ∃ o, (s, o) ∈ cs) :
    (runDetails summaries cs).length = summaries.length ∧
    (runDetails summaries cs).map (fun g => g.gameNumber) =
      summaries.map (fun s => s.gameNumber) ∧
    ∀ g ∈ runDetails summaries cs,
      g.status = GameStatus.done ∨ g.status = GameStatus.error := by
  rw [runDetails_eq_map]
  refine ⟨by simp, ?_, ?_⟩
  · rw [List.map_map, List.map_map]
    apply List.map_congr_left
    intro s _
    show (runRecord (initRecord s) cs).gameNumber = s.gameNumber
    rw [runRecord_gameNumber]
    rfl
  · intro g hg
    rw [List.map_map] at hg
    rcases List.mem_map.mp hg with ⟨s, hs, rfl⟩
    rcases hall s hs with ⟨o, ho⟩
    exact runRecord_terminal cs _ ⟨(s, o), ho, rfl⟩

def exSumA : GameSummary :=
  { gameNumber := "2501", gameName := "Cash Blast", startDate := "01/06/2025",
    ticketPrice := 5, detailUrl := "https://www.texaslottery.com/a/details.html" }

def exSumB : GameSummary :=
  { gameNumber := "2502", gameName := "Lucky 7s", startDate := "02/03/2025",
    ticketPrice := 10, detailUrl := "/b/details.html" }

def exDetB : GameDetail :=
  { packSize := 75, guaranteedPrizeAmount := 375, totalTickets := 7680600,
    overallOdds := "1 in 4.33.", topPrize := 100000, topPrizeInGame := 4,
    topPrizeClaimed := 1, prizesFound := true }

theorem loadGames_full_run_terminal_witness :
    (runDetails [exSumA, exSumB]
        [(exSumB, Outcome.err "Failed to fetch detail page: 500"),
         (exSumA, Outcome.ok exDetB)]).length = 2 ∧
    (runDetails [exSumA, exSumB]
        [(exSumB, Outcome.err "Failed to fetch detail page: 500"),
         (exSumA, Outcome.ok exDetB)]).map (fun g => g.gameNumber) =
      [exSumA, exSumB].map (fun s => s.gameNumber) ∧
    ∀ g ∈ runDetails [exSumA, exSumB]
        [(exSumB, Outcome.err "Failed to fetch detail page: 500"),
         (exSumA, Outcome.ok exDetB)],
      g.status = GameStatus.done ∨ g.status = GameStatus.error := by
  have h := loadGames_full_run_terminal [exSumA, exSumB]
    [(exSumB, Outcome.err "Failed to fetch detail page: 500"),
     (exSumA, Outcome.ok exDetB)]
    (by
      intro s hs
      rcases List.mem_cons.mp hs with rfl | hs
      · exact ⟨Outcome.ok exDetB, by simp⟩
      · rcases List.mem_cons.mp hs with rfl | hs
        · exact ⟨Outcome.err "Failed to fetch detail page: 500", by simp⟩
        · simp at hs)
  exact h
/-! ## Failure isolation -/

/-- The completions addressed to a given game number. -/
def matchesGN (gn : String) (c : GameSummary × Outcome) : Bool :=
  c.1.gameNumber == gn

lemma runRecord_filter (cs : List (GameSummary × Outcome)) (g : Game) :
    runRecord g cs = runRecord g (cs.filter (matchesGN g.gameNumber)) := by
  induction cs generalizing g with
  | nil => rfl
  | cons c cs ih =>
      rw [List.filter_cons]
      by_cases hc : g.gameNumber = c.1.gameNumber
      · have h1 : matchesGN g.gameNumber c = true := by
          simp [matchesGN, hc]
        rw [h1, if_pos rfl, runRecord_cons, if_pos hc, runRecord_cons, if_pos hc]
        rw [ih (mkResult c.1 c.2)]
        have hgn : (mkResult c.1 c.2).gameNumber = g.gameNumber := by
          rw [mkResult_gameNumber, hc]
        rw [hgn]
      · have h1 : matchesGN g.gameNumber c = false := by
          simp [matchesGN]
          intro h
          exact hc h.symm
        rw [h1, if_neg (by simp), runRecord_cons, if_neg hc, ih]

/-- C5: a failed detail fetch is converted at the item boundary into a
failed-state record that keeps the summary fields, carries the
human-readable message, and leaves every detail and derived field at its
default; and completions are independent per identifier — the run's
records are determined solely by the completions bearing each summary's
game number, so one item's failure never perturbs the other records.  The
concrete run shows a failed first item alongside a successfully merged
second item. -/
theorem detailFailure_isolated :
    (∀ (s : GameSummary) (msg : String),
      mkResult s (Outcome.err msg) = errorGame s msg ∧
      (errorGame s msg).status = GameStatus.error ∧
      (errorGame s msg).errorMessage = some msg ∧
      (errorGame s msg).gameNumber = s.gameNumber ∧
      (errorGame s msg).gameName = s.gameName ∧
      (errorGame s msg).startDate = s.startDate ∧
      (errorGame s msg).ticketPrice = s.ticketPrice ∧
      (errorGame s msg).detailUrl = s.detailUrl ∧
      (errorGame s msg).packSize = 0 ∧
      (errorGame s msg).guaranteedPrizeAmount = 0 ∧
      (errorGame s msg).totalTickets = 0 ∧
      (errorGame s msg).overallOdds = "N/A" ∧
      (errorGame s msg).topPrize = 0 ∧
      (errorGame s msg).topPrizeInGame = 0 ∧
      (errorGame s msg).topPrizeClaimed = 0 ∧
      (errorGame s msg).prizesFound = false ∧
      (errorGame s msg).packCost = 0 ∧
      (errorGame s msg).maxLoss = 0 ∧
      (errorGame s msg).maxLossPercent = 0 ∧
      (errorGame s msg).topPrizesRemaining = 0) ∧
    (∀ (summaries : List GameSummary) (cs cs' : List (GameSummary × Outcome)),
      (∀ s ∈ summaries,
        cs.filter (matchesGN s.gameNumber) = cs'.filter (matchesGN s.gameNumber)) →
      runDetails summaries cs = runDetails summaries cs') ∧
    runDetails [exSumA, exSumB]
        [(exSumA, Outcome.err "Failed to fetch detail page: 500"),
         (exSumB, Outcome.ok exDetB)] =
      [errorGame exSumA "Failed to fetch detail page: 500",
       computeFields exSumB exDetB] := by
  refine ⟨?_, ?_, ?_⟩
  · intro s msg
    exact ⟨rfl, rfl, rfl, rfl, rfl, rfl, rfl, rfl, rfl, rfl, rfl, rfl, rfl,
      rfl, rfl, rfl, rfl, rfl, rfl, rfl⟩
  · intro summaries cs cs' hagree
    rw [runDetails_eq_map, runDetails_eq_map, List.map_map, List.map_map]
    apply List.map_congr_left
    intro s hs
    show runRecord (initRecord s) cs = runRecord (initRecord s) cs'
    rw [runRecord_filter cs, runRecord_filter cs']
    have hgn : (initRecord s).gameNumber = s.gameNumber := rfl
    rw [hgn, hagree s hs]
  · rfl

theorem detailFailure_isolated_witness :
    runDetails [exSumA]
        [(exSumA, Outcome.err "boom"), (exSumB, Outcome.ok exDetB)] =
      runDetails [exSumA] [(exSumA, Outcome.err "boom")] :=
  detailFailure_isolated.2.1 [exSumA]
    [(exSumA, Outcome.err "boom"), (exSumB, Outcome.ok exDetB)]
    [(exSumA, Outcome.err "boom")]
    (by
      intro s hs
      rcases List.mem_cons.mp hs with rfl | hs
      · rfl
      · simp at hs)
/-! ## Prize-scan characterization -/

/-- A row the scan considers: at least three cells and a positive parsed
prize amount. -/
def entryQual (e : PrizeEntry) : Prop := 3 ≤ e.ncells ∧ 0 < e.v

instance entryQualDec : DecidablePred entryQual := fun _ => instDecidableAnd

/-- Normal form of one row step: the `claimedVal >= 0` disjunct of the
source condition is vacuous over the non-negative parse results, so a row
acts exactly when it has three cells and a positive amount. -/
lemma prizeRowStep_eq (st : PrizeState) (e : PrizeEntry) :
    prizeRowStep st e =
      if entryQual e then
        (if st.topPrize < e.v then
          { topPrize := e.v, topPrizeInGame := e.ig, topPrizeClaimed := e.cl,
            prizesFound := true }
        else { st with prizesFound := true })
      else st := by
  unfold prizeRowStep entryQual
  by_cases h1 : e.ncells < 3
  · rw [if_pos h1, if_neg (by omega)]
  · rw [if_neg h1]
    by_cases h2 : 0 < e.v
    · rw [if_pos (show 0 < e.v ∧ (0 < e.ig ∨ 0 ≤ e.cl) from
          ⟨h2, Or.inr (Nat.zero_le _)⟩),
        if_pos (show 3 ≤ e.ncells ∧ 0 < e.v from ⟨by omega, h2⟩)]
    · rw [if_neg (by tauto), if_neg (by tauto)]

lemma prizeRowStep_found (st : PrizeState) (e : PrizeEntry) :
    (prizeRowStep st e).prizesFound =
      (st.prizesFound || decide (entryQual e)) := by
  rw [prizeRowStep_eq]
  by_cases hq : entryQual e
  · rw [if_pos hq, decide_eq_true hq, Bool.or_true]
    split <;> rfl
  · rw [if_neg hq]
    simp [hq]

lemma foldl_prize_found (es : List PrizeEntry) (st : PrizeState) :
    (es.foldl prizeRowStep st).prizesFound =
      (st.prizesFound || es.any (fun e => decide (entryQual e))) := by
  induction es generalizing st with
  | nil => simp
  | cons e es ih =>
      rw [List.foldl_cons, ih, prizeRowStep_found, List.any_cons,
        Bool.or_assoc]

lemma foldl_prize_topPrize (es : List PrizeEntry) (st : PrizeState) :
    (es.foldl prizeRowStep st).topPrize =
      es.foldl (fun a e => if entryQual e then max a e.v else a) st.topPrize := by
  induction es generalizing st with
  | nil => rfl
  | cons e es ih =>
      rw [List.foldl_cons, List.foldl_cons, ih]
      congr 1
      rw [prizeRowStep_eq]
      by_cases hq : entryQual e
      · rw [if_pos hq, if_pos hq]
        by_cases hb : st.topPrize < e.v
        · rw [if_pos hb]
          exact (max_eq_right (le_of_lt hb)).symm
        · rw [if_neg hb]
          exact (max_eq_left (le_of_not_lt hb)).symm
      · rw [if_neg hq, if_neg hq]

lemma foldl_prize_select (es : List PrizeEntry) (st : PrizeState) :
    ((es.foldl prizeRowStep st).topPrize = st.topPrize ∧
     (es.foldl prizeRowStep st).topPrizeInGame = st.topPrizeInGame ∧
     (es.foldl prizeRowStep st).topPrizeClaimed = st.topPrizeClaimed) ∨
    (∃ l1 e l2, es = l1 ++ e :: l2 ∧ entryQual e ∧
      e.v = (es.foldl prizeRowStep st).topPrize ∧
      (es.foldl prizeRowStep st).topPrizeInGame = e.ig ∧
      (es.foldl prizeRowStep st).topPrizeClaimed = e.cl ∧
      st.topPrize < (es.foldl prizeRowStep st).topPrize ∧
      ∀ e' ∈ l1, entryQual e' → e'.v < (es.foldl prizeRowStep st).topPrize) := by
  induction es generalizing st with
  | nil => exact Or.inl ⟨rfl, rfl, rfl⟩
  | cons e es ih =>
      rw [List.foldl_cons, prizeRowStep_eq]
      by_cases hq : entryQual e
      · rw [if_pos hq]
        by_cases hb : st.topPrize < e.v
        · rw [if_pos hb]
          set st' : PrizeState :=
            { topPrize := e.v, topPrizeInGame := e.ig, topPrizeClaimed := e.cl,
              prizesFound := true } with hst'
          rcases ih st' with ⟨h1, h2, h3⟩ | ⟨l1, e', l2, hsplit, hq', hv, hig, hcl, hlt, hall⟩
          · refine Or.inr ⟨[], e, es, rfl, hq, ?_, ?_, ?_, ?_, ?_⟩
            · rw [h1]
            · rw [h2]
            · rw [h3]
            · rw [h1]; exact hb
            · intro e' he'; simp at he'
          · refine Or.inr ⟨e :: l1, e', l2, by rw [hsplit]; rfl, hq', hv, hig, hcl, ?_, ?_⟩
            · calc st.topPrize < e.v := hb
                _ = st'.topPrize := rfl
                _ < (es.foldl prizeRowStep st').topPrize := hlt
            · intro x hx hxq
              rcases List.mem_cons.mp hx with rfl | hx
              · calc x.v = st'.topPrize := rfl
                  _ < (es.foldl prizeRowStep st').topPrize := hlt
              · exact hall x hx hxq
        · rw [if_neg hb]
          set st' : PrizeState := { st with prizesFound := true } with hst'
          have htp : st'.topPrize = st.topPrize := rfl
          rcases ih st' with ⟨h1, h2, h3⟩ | ⟨l1, e', l2, hsplit, hq', hv, hig, hcl, hlt, hall⟩
          · exact Or.inl ⟨h1, h2, h3⟩
          · refine Or.inr ⟨e :: l1, e', l2, by rw [hsplit]; rfl, hq', hv, hig, hcl, ?_, ?_⟩
            · rw [← htp]; exact hlt
            · intro x hx hxq
              rcases List.mem_cons.mp hx with rfl | hx
              · calc x.v ≤ st.topPrize := le_of_not_lt hb
                  _ = st'.topPrize := rfl
                  _ < (es.foldl prizeRowStep st').topPrize := hlt
              · exact hall x hx hxq
      · rw [if_neg hq]
        rcases ih st with ⟨h1, h2, h3⟩ | ⟨l1, e', l2, hsplit, hq', hv, hig, hcl, hlt, hall⟩
        · exact Or.inl ⟨h1, h2, h3⟩
        · refine Or.inr ⟨e :: l1, e', l2, by rw [hsplit]; rfl, hq', hv, hig, hcl, hlt, ?_⟩
          intro x hx hxq
          rcases List.mem_cons.mp hx with rfl | hx
          · exact absurd hxq hq
          · exact hall x hx hxq

lemma prizeScan_eq_foldl_aux (tables : List HtmlTable) (st : PrizeState) :
    tables.foldl
      (fun st t =>
        if tableQual t then (tableEntries t).foldl prizeRowStep st else st) st =
    (((tables.filter tableQual).map tableEntries).flatten).foldl prizeRowStep st := by
  induction tables generalizing st with
  | nil => rfl
  | cons t ts ih =>
      rw [List.foldl_cons]
      by_cases hq : tableQual t
      · rw [if_pos hq, List.filter_cons_of_pos hq, List.map_cons,
          List.flatten_cons, List.foldl_append, ih]
      · rw [if_neg hq, List.filter_cons_of_neg (by simp [hq]), ih]

lemma prizeScan_eq_foldl (page : DetailPage) :
    prizeScan page = (allEntries page).foldl prizeRowStep initPrize :=
  prizeScan_eq_foldl_aux page.tables initPrize

lemma mem_allEntries (page : DetailPage) (e : PrizeEntry) :
    e ∈ allEntries page ↔
      ∃ t ∈ page.tables, tableQual t = true ∧
        ∃ row ∈ t.rows, e = rowEntry (headerCols t.header) row := by
  unfold allEntries tableEntries
  rw [List.mem_flatten]
  constructor
  · rintro ⟨l, hl, hel⟩
    rcases List.mem_map.mp hl with ⟨t, ht, rfl⟩
    rcases List.mem_filter.mp ht with ⟨htmem, htq⟩
    rcases List.mem_map.mp hel with ⟨row, hrow, hre⟩
    exact ⟨t, htmem, htq, row, hrow, hre.symm⟩
  · rintro ⟨t, htmem, htq, row, hrow, rfl⟩
    refine ⟨_, List.mem_map.mpr ⟨t, List.mem_filter.mpr ⟨htmem, htq⟩, rfl⟩, ?_⟩
    exact List.mem_map.mpr ⟨row, hrow, rfl⟩
lemma foldl_max_le_self (es : List PrizeEntry) (a : ℚ) :
    a ≤ es.foldl (fun a e => if entryQual e then max a e.v else a) a := by
  induction es generalizing a with
  | nil => exact le_refl a
  | cons e es ih =>
      rw [List.foldl_cons]
      refine le_trans ?_ (ih _)
      split
      · exact le_max_left a e.v
      · exact le_refl a

lemma mem_le_foldl_max (es : List PrizeEntry) (a : ℚ) (e : PrizeEntry)
    (he : e ∈ es) (hq : entryQual e) :
    e.v ≤ es.foldl (fun a e => if entryQual e then max a e.v else a) a := by
  induction es generalizing a with
  | nil => simp at he
  | cons e0 es ih =>
      rw [List.foldl_cons]
      rcases List.mem_cons.mp he with rfl | he
      · refine le_trans ?_ (foldl_max_le_self es _)
        rw [if_pos hq]
        exact le_max_right a e.v
      · exact ih _ he

def exPrizeTable : HtmlTable :=
  { text := "Prize Amount No. in Game No. Prizes Claimed $500 10 3 $100,000 2 2"
    header := ["Prize Amount", "No. in Game", "No. Prizes Claimed"]
    rows := [["$500", "10", "3"], ["$100,000", "2", "2"]] }

def exPrizePage : DetailPage :=
  { rawHtml := "", fullText := "", elements := [], tables := [exPrizeTable] }

def exTieTable : HtmlTable :=
  { text := "Prize Amount No. in Game No. Prizes Claimed $500 10 3 $500 2 2"
    header := ["Prize Amount", "No. in Game", "No. Prizes Claimed"]
    rows := [["$500", "10", "3"], ["$500", "2", "2"]] }

def exTiePage : DetailPage :=
  { rawHtml := "", fullText := "", elements := [], tables := [exTieTable] }

/-- C3: over exactly the tables whose flattened text contains "prize" and
"in game" or "claimed", scanned in document order, `prizesFound` holds iff
some row with at least three cells parses a positive prize amount; the
reported top prize is the running maximum (with floor 0) over all
qualifying rows of all qualifying tables; and the in-game/claimed counts
come from the first row (in scan order) attaining that maximum — strictly
earlier qualifying rows are strictly smaller, so a tie keeps the
first-seen row.  The spec's example table yields
`topPrize = 100000, topPrizeInGame = 2, topPrizeClaimed = 2,
prizesFound = true`, and a tied table keeps the first row's counts. -/
theorem prizeTable_resolver_spec :
    (∀ page : DetailPage,
      ((prizeScan page).prizesFound = true ↔
        ∃ t ∈ page.tables, tableQual t = true ∧
          ∃ row ∈ t.rows, 3 ≤ row.length ∧
            0 < (rowEntry (headerCols t.header) row).v) ∧
      (prizeScan page).topPrize =
        (allEntries page).foldl
          (fun a e => if entryQual e then max a e.v else a) 0 ∧
      ((prizeScan page).prizesFound = true →
        ∃ l1 e l2, allEntries page = l1 ++ e :: l2 ∧ entryQual e ∧
          e.v = (prizeScan page).topPrize ∧
          (prizeScan page).topPrizeInGame = e.ig ∧
          (prizeScan page).topPrizeClaimed = e.cl ∧
          ∀ e' ∈ l1, entryQual e' → e'.v < (prizeScan page).topPrize)) ∧
    prizeScan exPrizePage =
      { topPrize := 100000, topPrizeInGame := 2, topPrizeClaimed := 2,
        prizesFound := true } ∧
    prizeScan exTiePage =
      { topPrize := 500, topPrizeInGame := 10, topPrizeClaimed := 3,
        prizesFound := true } := by
  refine ⟨?_, by decide, by decide⟩
  intro page
  have hfound : (prizeScan page).prizesFound =
      (allEntries page).any (fun e => decide (entryQual e)) := by
    rw [prizeScan_eq_foldl, foldl_prize_found]
    rfl
  have htp : (prizeScan page).topPrize =
      (allEntries page).foldl
        (fun a e => if entryQual e then max a e.v else a) 0 := by
    rw [prizeScan_eq_foldl, foldl_prize_topPrize]
    rfl
  refine ⟨?_, htp, ?_⟩
  · rw [hfound, List.any_eq_true]
    constructor
    · rintro ⟨e, he, hq⟩
      rw [decide_eq_true_eq] at hq
      rcases (mem_allEntries page e).mp he with ⟨t, ht, htq, row, hrow, rfl⟩
      exact ⟨t, ht, htq, row, hrow, hq.1, hq.2⟩
    · rintro ⟨t, ht, htq, row, hrow, h3, hv⟩
      refine ⟨rowEntry (headerCols t.header) row,
        (mem_allEntries page _).mpr ⟨t, ht, htq, row, hrow, rfl⟩, ?_⟩
      rw [decide_eq_true_eq]
      exact ⟨h3, hv⟩
  · intro hf
    have hsel := foldl_prize_select (allEntries page) initPrize
    rw [← prizeScan_eq_foldl] at hsel
    rcases hsel with ⟨h1, _, _⟩ | ⟨l1, e, l2, hsplit, hq, hv, hig, hcl, _, hall⟩
    · exfalso
      rw [hfound, List.any_eq_true] at hf
      rcases hf with ⟨e, he, hq⟩
      rw [decide_eq_true_eq] at hq
      have hle := mem_le_foldl_max (allEntries page) 0 e he hq
      rw [← htp, h1] at hle
      have : (0 : ℚ) < 0 := lt_of_lt_of_le hq.2 hle
      exact absurd this (lt_irrefl 0)
    · exact ⟨l1, e, l2, hsplit, hq, hv, hig, hcl, hall⟩

theorem prizeTable_resolver_spec_witness :
    ∃ l1 e l2, allEntries exPrizePage = l1 ++ e :: l2 ∧ entryQual e ∧
      e.v = (prizeScan exPrizePage).topPrize ∧
      (prizeScan exPrizePage).topPrizeInGame = e.ig ∧
      (prizeScan exPrizePage).topPrizeClaimed = e.cl ∧
      ∀ e' ∈ l1, entryQual e' → e'.v < (prizeScan exPrizePage).topPrize :=
  (prizeTable_resolver_spec.1 exPrizePage).2.2 (by decide)
/-! ## Scalar-chain freeze discipline -/

lemma m2pack_other (st : ScalarState) (line lower : String)
    (next : Option String) :
    (m2pack st line lower next).guaranteedPrizeAmount =
        st.guaranteedPrizeAmount ∧
      (m2pack st line lower next).overallOdds = st.overallOdds ∧
      (m2pack st line lower next).totalTickets = st.totalTickets := by
  unfold m2pack
  repeat' split
  all_goals exact ⟨rfl, rfl, rfl⟩

lemma m2pack_frozen (st : ScalarState) (line lower : String)
    (next : Option String) (h : st.packSize ≠ 0) :
    m2pack st line lower next = st := by
  unfold m2pack
  rw [if_neg]
  simp [h]

lemma m2guar_other (st : ScalarState) (line lower : String) :
    (m2guar st line lower).packSize = st.packSize ∧
      (m2guar st line lower).overallOdds = st.overallOdds ∧
      (m2guar st line lower).totalTickets = st.totalTickets := by
  unfold m2guar
  repeat' split
  all_goals exact ⟨rfl, rfl, rfl⟩

lemma m2guar_frozen (st : ScalarState) (line lower : String)
    (h : st.guaranteedPrizeAmount ≠ 0) : m2guar st line lower = st := by
  unfold m2guar
  rw [if_neg]
  simp [h]

lemma m2odds_other (st : ScalarState) (line lower : String)
    (next : Option String) :
    (m2odds st line lower next).packSize = st.packSize ∧
      (m2odds st line lower next).guaranteedPrizeAmount =
        st.guaranteedPrizeAmount ∧
      (m2odds st line lower next).totalTickets = st.totalTickets := by
  unfold m2odds
  dsimp only
  repeat' split
  all_goals exact ⟨rfl, rfl, rfl⟩

lemma m2odds_frozen (st : ScalarState) (line lower : String)
    (next : Option String) (h : st.overallOdds ≠ "N/A") :
    m2odds st line lower next = st := by
  unfold m2odds
  rw [if_neg]
  simp [h]

lemma method2Step_preserves (st : ScalarState) (line : String)
    (next : Option String) :
    ((method2Step st line next).totalTickets = st.totalTickets) ∧
    (st.packSize ≠ 0 → (method2Step st line next).packSize = st.packSize) ∧
    (st.guaranteedPrizeAmount ≠ 0 →
      (method2Step st line next).guaranteedPrizeAmount =
        st.guaranteedPrizeAmount) ∧
    (st.overallOdds ≠ "N/A" →
      (method2Step st line next).overallOdds = st.overallOdds) := by
  unfold method2Step
  refine ⟨?_, ?_, ?_, ?_⟩
  · rw [(m2odds_other _ _ _ _).2.2, (m2guar_other _ _ _).2.2,
      (m2pack_other _ _ _ _).2.2]
  · intro h
    rw [(m2odds_other _ _ _ _).1, (m2guar_other _ _ _).1,
      m2pack_frozen st _ _ _ h]
  · intro h
    rw [(m2odds_other _ _ _ _).2.1,
      m2guar_frozen _ _ _ (by rw [(m2pack_other _ _ _ _).1]; exact h),
      (m2pack_other _ _ _ _).1]
  · intro h
    rw [m2odds_frozen _ _ _ _ ?ho, (m2guar_other _ _ _).2.1,
      (m2pack_other _ _ _ _).2.1]
    case ho =>
      rw [(m2guar_other _ _ _).2.1, (m2pack_other _ _ _ _).2.1]
      exact h

lemma method2_preserves (lines : List String) (st : ScalarState) :
    ((method2 lines st).totalTickets = st.totalTickets) ∧
    (st.packSize ≠ 0 → (method2 lines st).packSize = st.packSize) ∧
    (st.guaranteedPrizeAmount ≠ 0 →
      (method2 lines st).guaranteedPrizeAmount = st.guaranteedPrizeAmount) ∧
    (st.overallOdds ≠ "N/A" →
      (method2 lines st).overallOdds = st.overallOdds) := by
  induction lines generalizing st with
  | nil => exact ⟨rfl, fun _ => rfl, fun _ => rfl, fun _ => rfl⟩
  | cons l rest ih =>
      have hunf : method2 (l :: rest) st =
          method2 rest (method2Step st l rest.head?) := rfl
      rw [hunf]
      have hstep := method2Step_preserves st l rest.head?
      have hrec := ih (method2Step st l rest.head?)
      refine ⟨?_, ?_, ?_, ?_⟩
      · rw [hrec.1, hstep.1]
      · intro h
        rw [hrec.2.1 (by rw [hstep.2.1 h]; exact h), hstep.2.1 h]
      · intro h
        rw [hrec.2.2.1 (by rw [hstep.2.2.1 h]; exact h), hstep.2.2.1 h]
      · intro h
        rw [hrec.2.2.2 (by rw [hstep.2.2.2 h]; exact h), hstep.2.2.2 h]

lemma m2guar_no_match (st : ScalarState) (line lower : String)
    (h : sIncludes lower "guaranteed" = true → dollarFind line.data = none) :
    (m2guar st line lower).guaranteedPrizeAmount =
      st.guaranteedPrizeAmount := by
  unfold m2guar
  split
  · rename_i hc
    rw [Bool.and_eq_true] at hc
    rw [h hc.1]
  · rfl

lemma method2_guar_unresolved (lines : List String) (st : ScalarState)
    (h : ∀ l ∈ lines,
      sIncludes (lowerStr l) "guaranteed" = true → dollarFind l.data = none) :
    (method2 lines st).guaranteedPrizeAmount = st.guaranteedPrizeAmount := by
  induction lines generalizing st with
  | nil => rfl
  | cons l rest ih =>
      have hunf : method2 (l :: rest) st =
          method2 rest (method2Step st l rest.head?) := rfl
      rw [hunf, ih _ (fun l' hl' => h l' (List.mem_cons_of_mem l hl'))]
      have hunf2 : method2Step st l rest.head? =
          m2odds (m2guar (m2pack st l (lowerStr l) rest.head?) l (lowerStr l))
            l (lowerStr l) rest.head? := rfl
      rw [hunf2]
      rw [(m2odds_other _ _ _ _).2.1,
        m2guar_no_match _ _ _ (h l (List.mem_cons_self l rest)),
        (m2pack_other _ _ _ _).1]
/-- A detail page whose guaranteed-amount phrase occurs twice with
different amounts: once as the main field and once as an incidental
mention.  Pack size is absent from the labeled elements, so the line scan
(Method 2) runs and must not overwrite the frozen amount. -/
def exC4Page : DetailPage :=
  { rawHtml := ""
    fullText := "Pack Size: 75\nGuaranteed Total Prize Amount = $950 per pack\nPrize tiers: guaranteed $800 in table\nThere are approximately 7,680,600* tickets\nOverall odds of winning any prize are 1 in 4.33"
    elements := ["Guaranteed Total Prize Amount = $950 per pack",
                 "Prize tiers: guaranteed $800 in table"]
    tables := [] }

/-- C4: each scalar field obeys the prioritized chain discipline — a field
resolved (non-default) after the element scan is frozen: the line scan
never overwrites it (and total tickets is never touched after its
full-text step); a field no step resolves keeps its default (shown for the
guaranteed amount); on the concrete page whose guaranteed phrase occurs
twice with different amounts the first successful step's value 950 wins
while the line scan still fills the unresolved pack size; and the second
revision's phrase-template step takes the first occurrence of the
guaranteed-amount template. -/
theorem scalarChain_freeze :
    (∀ page : DetailPage,
      (extractScalars page).totalTickets = (scalarsAfterM1 page).totalTickets ∧
      ((scalarsAfterM1 page).packSize ≠ 0 →
        (extractScalars page).packSize = (scalarsAfterM1 page).packSize) ∧
      ((scalarsAfterM1 page).guaranteedPrizeAmount ≠ 0 →
        (extractScalars page).guaranteedPrizeAmount =
          (scalarsAfterM1 page).guaranteedPrizeAmount) ∧
      ((scalarsAfterM1 page).overallOdds ≠ "N/A" →
        (extractScalars page).overallOdds = (scalarsAfterM1 page).overallOdds)) ∧
    (∀ page : DetailPage,
      (scalarsAfterM1 page).guaranteedPrizeAmount = 0 →
      (∀ l ∈ linesOf page.fullText,
        sIncludes (lowerStr l) "guaranteed" = true → dollarFind l.data = none) →
      (extractScalars page).guaranteedPrizeAmount = 0) ∧
    extractScalars exC4Page =
      { packSize := 75, guaranteedPrizeAmount := 950, totalTickets := 7680600,
        overallOdds := "1 in 4.33" } ∧
    guaranteedTemplate
        "Guaranteed Total Prize Amount = $950 per pack and later Guaranteed Total Prize Amount = $800"
      = some 950 := by
  refine ⟨?_, ?_, by decide, by decide⟩
  · intro page
    unfold extractScalars
    dsimp only
    split
    · exact method2_preserves _ _
    · exact ⟨rfl, fun _ => rfl, fun _ => rfl, fun _ => rfl⟩
  · intro page hg hlines
    unfold extractScalars
    dsimp only
    split
    · rw [method2_guar_unresolved _ _ hlines]
      exact hg
    · exact hg

theorem scalarChain_freeze_witness :
    (extractScalars exC4Page).guaranteedPrizeAmount =
      (scalarsAfterM1 exC4Page).guaranteedPrizeAmount :=
  (scalarChain_freeze.1 exC4Page).2.2.1 (by decide)
/-! ## Listing dedup -/

lemma rowGame_eq (r : ListingRow) (p : String × GameSummary)
    (h : rowGame r = some p) : p.2.gameNumber = p.1 := by
  unfold rowGame at h
  dsimp only at h
  repeat' split at h
  all_goals first
    | exact Option.noConfusion h
    | (injection h with h; subst h; rfl)

lemma scanListing_nodup (rows : List ListingRow) (seen : List String) :
    (∀ s ∈ scanListing rows seen, s.gameNumber ∉ seen) ∧
    ((scanListing rows seen).map (fun s => s.gameNumber)).Nodup := by
  induction rows generalizing seen with
  | nil => exact ⟨by intro s hs; simp [scanListing] at hs, by simp [scanListing]⟩
  | cons r rs ih =>
      cases hg : rowGame r with
      | none =>
          rw [scanListing, hg]
          exact ih seen
      | some q =>
          obtain ⟨gn, s0⟩ := q
          rw [scanListing, hg]
          dsimp only
          by_cases hseen : gn ∈ seen
          · rw [if_pos hseen]
            exact ih seen
          · rw [if_neg hseen]
            by_cases hv : validSummary s0
            · rw [if_pos hv]
              have hgn0 : s0.gameNumber = gn := rowGame_eq r (gn, s0) hg
              refine ⟨?_, ?_⟩
              · intro s hs
                rcases List.mem_cons.mp hs with rfl | hs
                · rw [hgn0]; exact hseen
                · have := (ih (gn :: seen)).1 s hs
                  intro hcon
                  exact this (List.mem_cons_of_mem gn hcon)
              · rw [List.map_cons, List.nodup_cons]
                refine ⟨?_, (ih (gn :: seen)).2⟩
                intro hcon
                rcases List.mem_map.mp hcon with ⟨s, hs, hsn⟩
                have := (ih (gn :: seen)).1 s hs
                rw [hsn, hgn0] at this
                exact this (List.mem_cons_self gn seen)
            · rw [if_neg hv]
              refine ⟨?_, (ih (gn :: seen)).2⟩
              intro s hs
              have := (ih (gn :: seen)).1 s hs
              intro hcon
              exact this (List.mem_cons_of_mem gn hcon)

lemma scanListing_first (rows : List ListingRow) (seen : List String)
    (s : GameSummary) (h : s ∈ scanListing rows seen) :
    ∃ l1 r l2, rows = l1 ++ r :: l2 ∧
      rowGame r = some (s.gameNumber, s) ∧ validSummary s = true ∧
      ∀ r' ∈ l1, ∀ p : String × GameSummary, rowGame r' = some p →
        p.1 ≠ s.gameNumber ∨ p.1 ∈ seen := by
  induction rows generalizing seen with
  | nil => simp [scanListing] at h
  | cons r rs ih =>
      cases hg : rowGame r with
      | none =>
          rw [scanListing, hg] at h
          rcases ih seen h with ⟨l1, r0, l2, hsplit, hrg, hv, hall⟩
          refine ⟨r :: l1, r0, l2, by rw [hsplit]; rfl, hrg, hv, ?_⟩
          intro r' hr' p hp
          rcases List.mem_cons.mp hr' with rfl | hr'
          · rw [hg] at hp; exact Option.noConfusion hp
          · exact hall r' hr' p hp
      | some q =>
          obtain ⟨gn, s0⟩ := q
          rw [scanListing, hg] at h
          dsimp only at h
          by_cases hseen : gn ∈ seen
          · rw [if_pos hseen] at h
            rcases ih seen h with ⟨l1, r0, l2, hsplit, hrg, hv, hall⟩
            refine ⟨r :: l1, r0, l2, by rw [hsplit]; rfl, hrg, hv, ?_⟩
            intro r' hr' p hp
            rcases List.mem_cons.mp hr' with rfl | hr'
            · rw [hg] at hp
              injection hp with hp
              subst hp
              exact Or.inr hseen
            · exact hall r' hr' p hp
          · rw [if_neg hseen] at h
            have hgn0 : s0.gameNumber = gn := rowGame_eq r (gn, s0) hg
            have hrest : ∀ hmem : s ∈ scanListing rs (gn :: seen),
                ∃ l1 r0 l2, r :: rs = (r :: l1) ++ r0 :: l2 ∧
                  rowGame r0 = some (s.gameNumber, s) ∧ validSummary s = true ∧
                  ∀ r' ∈ r :: l1, ∀ p : String × GameSummary,
                    rowGame r' = some p → p.1 ≠ s.gameNumber ∨ p.1 ∈ seen := by
              intro hmem
              have hnotin := (scanListing_nodup rs (gn :: seen)).1 s hmem
              have hsgn : s.gameNumber ≠ gn := by
                intro hcon
                exact hnotin (by rw [hcon]; exact List.mem_cons_self gn seen)
              rcases ih (gn :: seen) hmem with ⟨l1, r0, l2, hsplit, hrg, hv, hall⟩
              refine ⟨l1, r0, l2, by rw [hsplit]; rfl, hrg, hv, ?_⟩
              intro r' hr' p hp
              rcases List.mem_cons.mp hr' with rfl | hr'
              · rw [hg] at hp
                injection hp with hp
                subst hp
                exact Or.inl (fun hcon => hsgn hcon.symm)
              · rcases hall r' hr' p hp with hne | hin
                · exact Or.inl hne
                · rcases List.mem_cons.mp hin with rfl | hin
                  · exact Or.inl (fun hcon => hsgn hcon.symm)
                  · exact Or.inr hin
            by_cases hv : validSummary s0
            · rw [if_pos hv] at h
              rcases List.mem_cons.mp h with rfl | hmem
              · refine ⟨[], r, rs, rfl, ?_, hv, ?_⟩
                · rw [hg, hgn0]
                · intro r' hr'; simp at hr'
              · rcases hrest hmem with ⟨l1, r0, l2, hsplit, hrg, hvv, hall⟩
                exact ⟨r :: l1, r0, l2, hsplit, hrg, hvv, hall⟩
            · rw [if_neg hv] at h
              rcases hrest h with ⟨l1, r0, l2, hsplit, hrg, hvv, hall⟩
              exact ⟨r :: l1, r0, l2, hsplit, hrg, hvv, hall⟩
lemma scanListing_sublist (rows : List ListingRow) (seen : List String) :
    List.Sublist (scanListing rows seen)
      (rows.filterMap (fun r => (rowGame r).map Prod.snd)) := by
  induction rows generalizing seen with
  | nil => simp [scanListing]
  | cons r rs ih =>
      cases hg : rowGame r with
      | none =>
          rw [scanListing, hg]
          simp only [List.filterMap_cons, hg, Option.map_none']
          exact ih seen
      | some q =>
          obtain ⟨gn, s0⟩ := q
          rw [scanListing, hg]
          simp only [List.filterMap_cons, hg, Option.map_some']
          by_cases hseen : gn ∈ seen
          · rw [if_pos hseen]
            exact (ih seen).cons _
          · rw [if_neg hseen]
            by_cases hv : validSummary s0
            · rw [if_pos hv]
              exact (ih (gn :: seen)).cons₂ _
            · rw [if_neg hv]
              exact (ih (gn :: seen)).cons _

lemma scanListing_first_valid (r : ListingRow) (l2 : List ListingRow)
    (gn : String) (s : GameSummary) (hg : rowGame r = some (gn, s))
    (hv : validSummary s = true) (l1 : List ListingRow) :
    ∀ seen : List String, gn ∉ seen →
      (∀ r' ∈ l1, ∀ p : String × GameSummary, rowGame r' = some p → p.1 ≠ gn) →
      s ∈ scanListing (l1 ++ r :: l2) seen := by
  induction l1 with
  | nil =>
      intro seen hseen _
      rw [List.nil_append, scanListing, hg]
      dsimp only
      rw [if_neg hseen, if_pos hv]
      exact List.mem_cons_self s _
  | cons r0 l1 ih =>
      intro seen hseen hall
      have htail : ∀ r' ∈ l1, ∀ p : String × GameSummary,
          rowGame r' = some p → p.1 ≠ gn :=
        fun r' hr' p hp => hall r' (List.mem_cons_of_mem r0 hr') p hp
      rw [List.cons_append]
      cases hg0 : rowGame r0 with
      | none =>
          rw [scanListing, hg0]
          exact ih seen hseen htail
      | some q =>
          obtain ⟨gn0, s0⟩ := q
          have hne : gn0 ≠ gn :=
            hall r0 (List.mem_cons_self r0 l1) (gn0, s0) hg0
          rw [scanListing, hg0]
          dsimp only
          by_cases hs0 : gn0 ∈ seen
          · rw [if_pos hs0]
            exact ih seen hseen htail
          · rw [if_neg hs0]
            have hseen' : gn ∉ gn0 :: seen := by
              intro hc
              rcases List.mem_cons.mp hc with rfl | hc
              · exact hne rfl
              · exact hseen hc
            by_cases hv0 : validSummary s0
            · rw [if_pos hv0]
              exact List.mem_cons_of_mem s0 (ih (gn0 :: seen) hseen' htail)
            · rw [if_neg hv0]
              exact ih (gn0 :: seen) hseen' htail
def exRow1 : ListingRow :=
  [⟨"2501", some ⟨some "/scratchoffs/2501/details.html", "2501"⟩⟩,
   ⟨"01/06/2025", none⟩, ⟨"$5", none⟩, ⟨"", none⟩, ⟨"Alpha Riches", none⟩]

/-- A subordinate row sharing game 2501's link but naming a second
display string. -/
def exRow2 : ListingRow :=
  [⟨"2501", some ⟨some "/scratchoffs/2501/details.html", "2501"⟩⟩,
   ⟨"01/06/2025", none⟩, ⟨"$5", none⟩, ⟨"", none⟩, ⟨"Beta Riches", none⟩]

def exRow3 : ListingRow :=
  [⟨"2502", some ⟨some "/scratchoffs/2502/details.html", "2502"⟩⟩,
   ⟨"02/03/2025", none⟩, ⟨"$10", none⟩, ⟨"", none⟩, ⟨"Gamma Gold", none⟩]

/-- A decorative game row for 2501: it carries the link but its name cell
is the placeholder `*`, so validation rejects it. -/
def exRowBad : ListingRow :=
  [⟨"2501", some ⟨some "/scratchoffs/2501/details.html", "2501"⟩⟩,
   ⟨"01/06/2025", none⟩, ⟨"$5", none⟩, ⟨"", none⟩, ⟨"*", none⟩]

def exRowSum1 : GameSummary :=
  { gameNumber := "2501", gameName := "Alpha Riches", startDate := "01/06/2025",
    ticketPrice := 5,
    detailUrl := "https://www.texaslottery.com/scratchoffs/2501/details.html" }

def exRowSum2 : GameSummary :=
  { gameNumber := "2501", gameName := "Beta Riches", startDate := "01/06/2025",
    ticketPrice := 5,
    detailUrl := "https://www.texaslottery.com/scratchoffs/2501/details.html" }

def exRowSum3 : GameSummary :=
  { gameNumber := "2502", gameName := "Gamma Gold", startDate := "02/03/2025",
    ticketPrice := 10,
    detailUrl := "https://www.texaslottery.com/scratchoffs/2502/details.html" }

def exRowSumBad : GameSummary :=
  { gameNumber := "2501", gameName := "*", startDate := "01/06/2025",
    ticketPrice := 5,
    detailUrl := "https://www.texaslottery.com/scratchoffs/2501/details.html" }

/-- C6 counterexample: two fully qualifying rows for identifier 2501
(`exRow1`, `exRow2`) preceded by a decorative row with the same link but a
`*` name.  The scraper marks the identifier seen before validating the
name, so the decorative row claims 2501 and both qualifying rows are then
skipped as duplicates: no summary at all is emitted, not "exactly one". -/
theorem listing_dedup_counterexample :
    rowGame exRow1 = some ("2501", exRowSum1) ∧
    validSummary exRowSum1 = true ∧
    rowGame exRow2 = some ("2501", exRowSum2) ∧
    validSummary exRowSum2 = true ∧
    rowGame exRowBad = some ("2501", exRowSumBad) ∧
    validSummary exRowSumBad = false ∧
    listGames [exRowBad, exRow1, exRow2] = [] := by
  refine ⟨by decide, by decide, by decide, by decide, by decide, by decide,
    by decide⟩

/-- C6 amended: within one scan, emitted game numbers are pairwise
distinct; every emitted summary comes from the first game row bearing its
identifier (every earlier game row carries a different one), and that row
must itself pass validation — a game row claims its identifier into the
seen-set before the name check, so an invalid earlier row suppresses the
identifier entirely; when the first game row bearing an identifier is
valid it is emitted; and the output preserves document order (it is a
sublist of the per-row extraction results in document order).  On the
concrete listing [exRow1, exRow2, exRow3] with rows 1 and 2 bearing the
same identifier, exactly the first is emitted, before 2502. -/
theorem listing_dedup_spec :
    (∀ rows : List ListingRow,
      ((listGames rows).map (fun s => s.gameNumber)).Nodup) ∧
    (∀ rows : List ListingRow, ∀ s ∈ listGames rows,
      ∃ l1 r l2, rows = l1 ++ r :: l2 ∧
        rowGame r = some (s.gameNumber, s) ∧ validSummary s = true ∧
        ∀ r' ∈ l1, ∀ p : String × GameSummary, rowGame r' = some p →
          p.1 ≠ s.gameNumber) ∧
    (∀ rows : List ListingRow,
      List.Sublist (listGames rows)
        (rows.filterMap (fun r => (rowGame r).map Prod.snd))) ∧
    (∀ (l1 : List ListingRow) (r : ListingRow) (l2 : List ListingRow)
        (gn : String) (s : GameSummary),
      rowGame r = some (gn, s) → validSummary s = true →
      (∀ r' ∈ l1, ∀ p : String × GameSummary, rowGame r' = some p → p.1 ≠ gn) →
      s ∈ listGames (l1 ++ r :: l2)) ∧
    listGames [exRow1, exRow2, exRow3] = [exRowSum1, exRowSum3] := by
  refine ⟨?_, ?_, ?_, ?_, by decide⟩
  · intro rows
    exact (scanListing_nodup rows []).2
  · intro rows s hs
    rcases scanListing_first rows [] s hs with ⟨l1, r, l2, hsplit, hrg, hv, hall⟩
    refine ⟨l1, r, l2, hsplit, hrg, hv, ?_⟩
    intro r' hr' p hp
    rcases hall r' hr' p hp with hne | hin
    · exact hne
    · simp at hin
  · intro rows
    exact scanListing_sublist rows []
  · intro l1 r l2 gn s hg hv hall
    exact scanListing_first_valid r l2 gn s hg hv l1 [] (by simp) hall

theorem listing_dedup_spec_witness :
    exRowSum1 ∈ listGames [exRow1, exRow2, exRow3] :=
  listing_dedup_spec.2.2.2.1 [] exRow1 [exRow2, exRow3] "2501" exRowSum1
    (by decide) (by decide) (by intro r' hr' p hp; simp at hr')
